import Mathlib

/-!
# Verification of `kafka_consumer` (cpp/datasources/kafka/src/kafka_consumer.cpp)

Shallow embedding of the bounded batch read `consume_range`, the watermark query
`get_watermark_offset` and `commit_offset`.

The librdkafka session (`consumer_`) and the clock (`now()`) are external to the file.
They are embedded as response streams: the k-th call gets the k-th answer.  Quantifying
over all streams covers every behaviour of the collaborator and of the clock.  What the
code passes to them (poll timeouts, released messages, commit records) is logged in
ghost fields so that call counts and arguments can be stated.

A message carries its payload pointer (possibly null), the `len()` bytes behind it and
the bytes that follow them in memory, because `consume_range` reads the payload as a C
string.  Where that read is undefined the run is marked as faulted and returns nothing.
-/

namespace cudf.io.external.kafka

/-! ## Data model -/

/-- Numeric value of an `RdKafka::ErrorCode` (the enum of rdkafkacpp.h). -/
abbrev ErrorCode := Int

/-- Success code `RdKafka::ERR_NO_ERROR`. -/
def ERR_NO_ERROR : ErrorCode := 0

/-- End-of-partition code `RdKafka::ERR__PARTITION_EOF`. -/
def ERR__PARTITION_EOF : ErrorCode := -191

/-- Poll timeout code `RdKafka::ERR__TIMED_OUT`. -/
def ERR__TIMED_OUT : ErrorCode := -185

/-- Contents of a `std::string` or of a stretch of memory, one `Char` per byte. -/
abbrev Bytes := List Char

/-- The zero byte that terminates a C string. -/
def NUL : Char := Char.ofNat 0

/-- Text of the C string that starts a stretch of memory: the bytes before its first
zero byte.  Applied to the contents of a `std::string`, which `c_str()` hands out
followed by a terminator, it is what `std::string(s.c_str())` holds. -/
def c_str (p : Bytes) : Bytes := p.takeWhile (fun b => b != NUL)

/-- An `RdKafka::Message` as the code can observe it: `err()`, the `len()` bytes at
`payload()` (`none` when `payload()` is a null pointer) and the bytes that follow the
payload in memory. -/
structure Message where
  err : ErrorCode
  payload : Option Bytes
  beyond : Bytes
deriving DecidableEq

/-- Outcome of line 92, `str_buffer.append(static_cast<char *>(msg->payload()))`, for a
message: the bytes from the payload pointer up to the first zero byte in memory,
`len()` playing no part.  It is `none` where the source has undefined behaviour: the
pointer is null, or the read leaves the modelled memory without meeting a zero
byte. -/
def payload_text (m : Message) : Option Bytes :=
  match m.payload with
  | none => none
  | some p =>
    if (p ++ m.beyond).any (fun b => b == NUL) then some (c_str (p ++ m.beyond))
    else none

/-- Test `msg->err() == RdKafka::ErrorCode::ERR_NO_ERROR`. -/
def no_error (m : Message) : Bool := decide (m.err = ERR_NO_ERROR)

/-- Line 92 is defined for the message: `payload()` is not null and a zero byte is
met in memory at or after it. -/
def readable (m : Message) : Bool := (payload_text m).isSome

/-- Conversion of an `int64_t` value to `int` (32 bits, two's complement), as in
`int remaining_timeout = end - now()`. -/
def to_int (x : Int) : Int := (x + 2147483648) % 4294967296 - 2147483648

/-- Result of `int64_t` arithmetic: the exact value reduced to 64 bits, two's
complement. -/
def to_int64 (x : Int) : Int :=
  (x + 9223372036854775808) % 18446744073709551616 - 9223372036854775808

/-- What `consume_range` sees of the outside: `consume k` is the message returned by
the k-th call of `consumer_->consume`, `now k` the value of the k-th call of `now()`. -/
structure World where
  consume : Nat → Message
  now : Nat → Int

/-- Local variables of `consume_range` together with ghost fields: `polls` holds the
timeout passed to each `consume` call in call order, `released` the indices of the
polls whose message was deleted, `clock_reads` the number of `now()` calls made,
`assignment` the argument of `update_consumer_toppar_assignment`, and `faulted` tells
that line 92 met undefined behaviour.  A fault ends the run: `consume_range_run` makes
no iteration after the faulting one and the call yields no value. -/
structure RangeState where
  str_buffer : Bytes
  messages_read : Int
  remaining_timeout : Int
  polls : List Int
  released : List Nat
  clock_reads : Nat
  assignment : Option (String × Int × Int)
  faulted : Bool
deriving DecidableEq

/-! ## consume_range -/

/-- Lines 89 to 97 of the loop body: poll with the current `remaining_timeout`, append
the C string at `payload()` and the delimiter when the message has no error, then
recompute `remaining_timeout = end - now()`. -/
def poll_once (w : World) (end_ : Int) (delimiter : Bytes) (s : RangeState) : RangeState :=
  let msg := w.consume s.polls.length
  let s1 := { s with polls := s.polls ++ [s.remaining_timeout] }
  let s2 :=
    if msg.err = ERR_NO_ERROR then
      match payload_text msg with
      | some text =>
        { s1 with
          str_buffer := (s1.str_buffer ++ text) ++ delimiter
          messages_read := s1.messages_read + 1 }
      | none => { s1 with faulted := true }
    else s1
  { s2 with
    remaining_timeout := to_int (end_ - w.now s2.clock_reads)
    clock_reads := s2.clock_reads + 1 }

/-- Line 100, `delete msg`, for the message of the poll just made. -/
def release_msg (s : RangeState) : RangeState :=
  { s with released := s.released ++ [s.polls.length - 1] }

/-- The `while (messages_read < batch_size)` loop, run for at most `fuel` iterations.
The flag tells whether the loop was left (condition false, or `break`); with the flag
false the state is the one reached when the fuel ran out.  The fuel that
`consume_range_run` hands over ends with the iteration in which line 92 faults. -/
def consume_range_loop (w : World) (batch_size end_ : Int) (delimiter : Bytes) :
    Nat → RangeState → RangeState × Bool
  | 0, s => (s, false)
  | fuel + 1, s =>
    if s.messages_read < batch_size then
      let s1 := poll_once w end_ delimiter s
      if s1.remaining_timeout < 0 then (s1, true)
      else consume_range_loop w batch_size end_ delimiter fuel (release_msg s1)
    else (s, true)

/-- State of `consume_range` before the loop (lines 80 to 86). -/
def consume_range_init (topic : String) (partition start_offset batch_timeout : Int) :
    RangeState :=
  { str_buffer := []
    messages_read := 0
    remaining_timeout := batch_timeout
    polls := []
    released := []
    clock_reads := 1
    assignment := some (topic, partition, start_offset)
    faulted := false }

/-- Index of the first poll, among the first `n`, that hands out an error-free message
for which line 92 is undefined. -/
def first_fault (w : World) (n : Nat) : Option Nat :=
  (List.range n).find? (fun k => no_error (w.consume k) && !readable (w.consume k))

/-- Run of `consume_range` with at most `fuel` loop iterations: the state reached and
whether the loop was left.  `batch_size` and `end` are `int64_t` values, computed in
64 bits.  The run stops with the iteration in which line 92 faults: no iteration is
made after the poll `first_fault` points to. -/
def consume_range_run (w : World) (topic : String) (partition start_offset end_offset
    batch_timeout : Int) (delimiter : Bytes) (fuel : Nat) : RangeState × Bool :=
  let batch_size := to_int64 (end_offset - start_offset)
  let end_ := to_int64 (w.now 0 + batch_timeout)
  let iterations :=
    match first_fault w fuel with
    | some k => k + 1
    | none => fuel
  consume_range_loop w batch_size end_ delimiter iterations
    (consume_range_init topic partition start_offset batch_timeout)

/-- Value returned by `consume_range`: `str_buffer` once the loop is left without a
fault; `none` while the loop is still running after `fuel` iterations, and for a run
that faulted, which returns nothing. -/
def consume_range (w : World) (topic : String) (partition start_offset end_offset
    batch_timeout : Int) (delimiter : Bytes) (fuel : Nat) : Option Bytes :=
  match consume_range_run w topic partition start_offset end_offset batch_timeout
      delimiter fuel with
  | (s, true) => if s.faulted = true then none else some s.str_buffer
  | (_, false) => none

/-! ## get_watermark_offset -/

/-- Outcome of a watermark lookup of the session: the returned code and the values
left in the output variables `low` and `high`. -/
structure WatermarkReply where
  err : ErrorCode
  low : Int
  high : Int
deriving DecidableEq

/-- The two watermark lookups of `RdKafka::KafkaConsumer`: the cached view
`get_watermark_offsets(topic, partition, &low, &high)` and the live query
`query_watermark_offsets(topic, partition, &low, &high, timeout)`. -/
structure WatermarkSession where
  get_watermark_offsets : String → Int → WatermarkReply
  query_watermark_offsets : String → Int → Int → WatermarkReply

/-- Ghost record of one lookup made on the session. -/
inductive WatermarkCall where
  | cached (topic : String) (partition : Int)
  | live (topic : String) (partition : Int) (timeout : Int)
deriving DecidableEq

/-- Operation `std::map<std::string, int64_t>::insert`: the map is kept sorted by key
(bytewise lexicographic order) and an existing key keeps its value. -/
def map_insert : List (String × Int) → String → Int → List (String × Int)
  | [], key, value => [(key, value)]
  | (k, v) :: rest, key, value =>
    if key = k then (k, v) :: rest
    else if key.toList < k.toList then (key, value) :: (k, v) :: rest
    else (k, v) :: map_insert rest key value

/-- Lookup of a key in the map. -/
def map_find : List (String × Int) → String → Option Int
  | [], _ => none
  | (k, v) :: rest, key => if key = k then some v else map_find rest key

/-- What a call of `get_watermark_offset` produces: the returned map or the message of
the thrown `std::runtime_error`, the value stored in `err_`, and the lookups made. -/
structure WatermarkOutcome where
  result : Except Bytes (List (String × Int))
  err_ : ErrorCode
  calls : List WatermarkCall

/-- Function `kafka_consumer::get_watermark_offset`.  The parameter `err2str` is
`RdKafka::err2str`; the exception message is `std::string(err2str(err_).c_str())`. -/
def get_watermark_offset (c : WatermarkSession) (err2str : ErrorCode → Bytes)
    (topic : String) (partition timeout : Int) (cached : Bool) : WatermarkOutcome :=
  let results : List (String × Int) := []
  let reply :=
    if cached = true then c.get_watermark_offsets topic partition
    else c.query_watermark_offsets topic partition timeout
  let calls :=
    if cached = true then [WatermarkCall.cached topic partition]
    else [WatermarkCall.live topic partition timeout]
  let err_ := reply.err
  if err_ ≠ ERR_NO_ERROR then
    if err_ = ERR__PARTITION_EOF then
      { result := .ok (map_insert (map_insert results "low" reply.low) "high" reply.high)
        err_ := err_
        calls := calls }
    else
      { result := .error (c_str (err2str err_))
        err_ := err_
        calls := calls }
  else
    { result := .ok (map_insert (map_insert results "low" reply.low) "high" reply.high)
      err_ := err_
      calls := calls }

/-! ## commit_offset -/

/-- An `RdKafka::TopicPartition` record. -/
structure TopicPartition where
  topic : String
  partition : Int
  offset : Int
deriving DecidableEq

/-- What `commit_offset` uses of librdkafka: `RdKafka::TopicPartition::create(topic,
partition, offset)`, with `none` for a null pointer, and `commitSync(partitions)` with
the code it reports. -/
structure CommitSession where
  create : String → Int → Int → Option TopicPartition
  commitSync : List TopicPartition → ErrorCode

/-- What a call of `commit_offset` produces: the returned flag, the argument of each
`commitSync` call made, and the value stored in `err_` when one was stored. -/
structure CommitOutcome where
  result : Bool
  commits : List (List TopicPartition)
  err_ : Option ErrorCode
deriving DecidableEq

/-- Function `kafka_consumer::commit_offset`. -/
def commit_offset (c : CommitSession) (topic : String) (partition offset : Int) :
    CommitOutcome :=
  let partitions_ : List TopicPartition := []
  match c.create topic partition offset with
  | some toppar =>
    let toppar := { toppar with offset := offset }
    let partitions_ := partitions_ ++ [toppar]
    { result := true
      commits := [partitions_]
      err_ := some (c.commitSync partitions_) }
  | none =>
    { result := false
      commits := []
      err_ := none }

/-! ## Specification vocabulary -/

/-- Messages returned by the first `n` polls, in poll order. -/
def polled (w : World) (n : Nat) : List Message := (List.range n).map w.consume

/-- Text that line 92 appends for a message when it is defined for it. -/
def text_read (m : Message) : Bytes := (payload_text m).getD []

/-- What the loop has appended after `n` polls, one entry per error-free message: the
C string at `payload()`, followed by the delimiter. -/
def frames (w : World) (delimiter : Bytes) (n : Nat) : List Bytes :=
  ((polled w n).filter no_error).map (fun m => text_read m ++ delimiter)

/-- Timeout that the k-th poll receives: the initial `batch_timeout` for the first
poll, afterwards `end - now()` as stored in the `int` variable. -/
def poll_timeout (w : World) (end_ batch_timeout : Int) (k : Nat) : Int :=
  if k = 0 then batch_timeout else to_int (end_ - w.now k)

/-- The state agrees with the closed description of a run after `s.polls.length`
polls: buffer and count as long as no fault occurred, a fault only where an error-free
message could not be read, and the clock and timeout log in every case. -/
structure Tracks (w : World) (end_ batch_timeout : Int) (delimiter : Bytes)
    (s : RangeState) : Prop where
  buf : s.faulted = false → s.str_buffer = (frames w delimiter s.polls.length).flatten
  cnt : s.faulted = false →
    s.messages_read = ((frames w delimiter s.polls.length).length : Int)
  flt : s.faulted = true → ∃ k, k < s.polls.length
    ∧ (w.consume k).err = ERR_NO_ERROR ∧ readable (w.consume k) = false
  clk : s.clock_reads = s.polls.length + 1
  rem : s.remaining_timeout = poll_timeout w end_ batch_timeout s.polls.length
  log : s.polls = (List.range s.polls.length).map (poll_timeout w end_ batch_timeout)

/-! ## Concrete runs -/

/-- Error-free message whose payload is the given text, followed in memory by a zero
byte. -/
def text_msg (t : String) : Message :=
  { err := ERR_NO_ERROR, payload := some t.toList, beyond := [NUL] }

/-- Message handed out by a poll that timed out: an error code and no payload. -/
def timeout_msg : Message := { err := ERR__TIMED_OUT, payload := none, beyond := [] }

/-- Scenario of the full window: payloads "a", "b", ... delivered one millisecond
apart, entry at time 1000. -/
def full_world : World :=
  { consume := fun k => text_msg (String.singleton (Char.ofNat (97 + k)))
    now := fun k => 1000 + (k : Int) }

/-- Scenario of the short window: "a" and "b" are delivered, the third poll times
out and returns after the deadline 6000. -/
def short_world : World :=
  { consume := fun k => if k < 2 then text_msg (String.singleton (Char.ofNat (97 + k)))
      else timeout_msg
    now := fun k => if k ≤ 2 then 1000 + (k : Int) else 6001 }

/-- Every message carries the three payload bytes 'a', 0, 'b', followed by a zero
byte; the clock stands at 1000. -/
def binary_world : World :=
  { consume := fun _ =>
      { err := ERR_NO_ERROR, payload := some ['a', NUL, 'b'], beyond := [NUL] }
    now := fun _ => 1000 }

/-- First poll times out, second poll delivers the payload bytes 'x', 0, 'y'; the
clock stands at 1000. -/
def mixed_world : World :=
  { consume := fun k => if k = 0 then timeout_msg
      else { err := ERR_NO_ERROR, payload := some ['x', NUL, 'y'], beyond := [NUL] }
    now := fun _ => 1000 }

/-- Every message has the two payload bytes "ab", followed in memory by "XYZ" and
only then by a zero byte; the clock stands at 1000. -/
def unterminated_world : World :=
  { consume := fun _ =>
      { err := ERR_NO_ERROR, payload := some "ab".toList, beyond := "XYZ".toList ++ [NUL] }
    now := fun _ => 1000 }

/-- Every message is error-free with a null payload pointer; the clock stands at
1000. -/
def null_world : World :=
  { consume := fun _ => { err := ERR_NO_ERROR, payload := none, beyond := [] }
    now := fun _ => 1000 }

/-- Payloads "a", "b", ...; entry at 1000, and the clock reads 999 from then on (set
back by one millisecond). -/
def backward_world : World :=
  { consume := fun k => text_msg (String.singleton (Char.ofNat (97 + k)))
    now := fun k => if k = 0 then 1000 else 999 }

/-- Payloads "a", "b", ...; entry at 0, every later reading is 2147483649. -/
def overrun_world : World :=
  { consume := fun k => text_msg (String.singleton (Char.ofNat (97 + k)))
    now := fun k => if k = 0 then 0 else 2147483649 }

/-- Payloads "a", "b", ...; entry at 1000, every later reading is 1005. -/
def boundary_world : World :=
  { consume := fun k => text_msg (String.singleton (Char.ofNat (97 + k)))
    now := fun k => if k = 0 then 1000 else 1005 }

/-- Entry at 1000; the first poll delivers "a" but returns at 1006, after the
deadline 1005. -/
def late_world : World :=
  { consume := fun _ => text_msg "a"
    now := fun k => if k = 0 then 1000 else 1006 }

/-- Session whose live query reports end of partition with watermarks 3 and 8 and
whose cached view reports success with watermarks 2 and 7. -/
def eof_session : WatermarkSession :=
  { get_watermark_offsets := fun _ _ => { err := ERR_NO_ERROR, low := 2, high := 7 }
    query_watermark_offsets := fun _ _ _ => { err := ERR__PARTITION_EOF, low := 3, high := 8 } }

/-- Diagnostic text used in the concrete runs. -/
def sample_err2str (e : ErrorCode) : Bytes :=
  if e = ERR__PARTITION_EOF then "Broker: No more messages".toList else "Local: Timed out".toList

/-- Session that builds every record and whose `commitSync` reports a timeout. -/
def failing_commit_session : CommitSession :=
  { create := fun t p o => some { topic := t, partition := p, offset := o }
    commitSync := fun _ => ERR__TIMED_OUT }

/-! ## Basic facts -/

theorem to_int_of_fits (x : Int) (h1 : -2147483648 ≤ x) (h2 : x < 2147483648) :
    to_int x = x := by
  unfold to_int
  omega

theorem to_int64_of_fits (x : Int) (h1 : -9223372036854775808 ≤ x)
    (h2 : x < 9223372036854775808) : to_int64 x = x := by
  unfold to_int64
  omega

/-- Narrowing to `int` does not see the reduction of the deadline to 64 bits. -/
theorem to_int_sub_to_int64 (x y : Int) : to_int (to_int64 x - y) = to_int (x - y) := by
  unfold to_int to_int64
  omega

theorem polled_succ (w : World) (n : Nat) : polled w (n + 1) = polled w n ++ [w.consume n] := by
  simp [polled, List.range_succ]

theorem frames_succ_ok (w : World) (d : Bytes) (n : Nat)
    (h : (w.consume n).err = ERR_NO_ERROR) :
    frames w d (n + 1) = frames w d n ++ [text_read (w.consume n) ++ d] := by
  simp [frames, polled_succ, List.filter_append, no_error, h]

theorem frames_succ_err (w : World) (d : Bytes) (n : Nat)
    (h : ¬ (w.consume n).err = ERR_NO_ERROR) :
    frames w d (n + 1) = frames w d n := by
  simp [frames, polled_succ, List.filter_append, no_error, h]

theorem frames_length_mono (w : World) (d : Bytes) (n m : Nat) (h : n ≤ m) :
    (frames w d n).length ≤ (frames w d m).length := by
  induction m with
  | zero =>
    have : n = 0 := by omega
    subst this
    exact le_refl _
  | succ m ih =>
    rcases Nat.lt_or_ge n (m + 1) with hlt | hge
    · have h1 := ih (by omega)
      by_cases hok : (w.consume m).err = ERR_NO_ERROR
      · rw [frames_succ_ok w d m hok]
        simp
        omega
      · rw [frames_succ_err w d m hok]
        exact h1
    · have : n = m + 1 := by omega
      subst this
      exact le_refl _

theorem readable_iff (m : Message) : readable m = true ↔ ∃ t, payload_text m = some t := by
  unfold readable
  exact Option.isSome_iff_exists

theorem text_read_of_some (m : Message) (t : Bytes) (h : payload_text m = some t) :
    text_read m = t := by
  simp [text_read, h]

theorem poll_once_polls (w : World) (e : Int) (d : Bytes) (s : RangeState) :
    (poll_once w e d s).polls = s.polls ++ [s.remaining_timeout] := by
  by_cases h : (w.consume s.polls.length).err = ERR_NO_ERROR
  · cases hp : payload_text (w.consume s.polls.length) <;> simp [poll_once, h, hp]
  · simp [poll_once, h]

theorem poll_once_remaining (w : World) (e : Int) (d : Bytes) (s : RangeState) :
    (poll_once w e d s).remaining_timeout = to_int (e - w.now s.clock_reads) := by
  by_cases h : (w.consume s.polls.length).err = ERR_NO_ERROR
  · cases hp : payload_text (w.consume s.polls.length) <;> simp [poll_once, h, hp]
  · simp [poll_once, h]

theorem poll_once_clock (w : World) (e : Int) (d : Bytes) (s : RangeState) :
    (poll_once w e d s).clock_reads = s.clock_reads + 1 := by
  by_cases h : (w.consume s.polls.length).err = ERR_NO_ERROR
  · cases hp : payload_text (w.consume s.polls.length) <;> simp [poll_once, h, hp]
  · simp [poll_once, h]

theorem poll_once_released (w : World) (e : Int) (d : Bytes) (s : RangeState) :
    (poll_once w e d s).released = s.released := by
  by_cases h : (w.consume s.polls.length).err = ERR_NO_ERROR
  · cases hp : payload_text (w.consume s.polls.length) <;> simp [poll_once, h, hp]
  · simp [poll_once, h]

theorem poll_once_read (w : World) (e : Int) (d : Bytes) (s : RangeState) (t : Bytes)
    (h : (w.consume s.polls.length).err = ERR_NO_ERROR)
    (hp : payload_text (w.consume s.polls.length) = some t) :
    (poll_once w e d s).str_buffer = (s.str_buffer ++ t) ++ d
    ∧ (poll_once w e d s).messages_read = s.messages_read + 1
    ∧ (poll_once w e d s).faulted = s.faulted := by
  simp [poll_once, h, hp]

theorem poll_once_fault (w : World) (e : Int) (d : Bytes) (s : RangeState)
    (h : (w.consume s.polls.length).err = ERR_NO_ERROR)
    (hp : payload_text (w.consume s.polls.length) = none) :
    (poll_once w e d s).faulted = true := by
  simp [poll_once, h, hp]

theorem poll_once_err (w : World) (e : Int) (d : Bytes) (s : RangeState)
    (h : ¬ (w.consume s.polls.length).err = ERR_NO_ERROR) :
    (poll_once w e d s).str_buffer = s.str_buffer
    ∧ (poll_once w e d s).messages_read = s.messages_read
    ∧ (poll_once w e d s).faulted = s.faulted := by
  simp [poll_once, h]

/-- An iteration keeps a run free of fault when its message has an error code or can
be read. -/
theorem poll_once_no_fault (w : World) (e : Int) (d : Bytes) (s : RangeState)
    (hs : s.faulted = false)
    (hr : (w.consume s.polls.length).err = ERR_NO_ERROR →
      readable (w.consume s.polls.length) = true) :
    (poll_once w e d s).faulted = false := by
  by_cases h : (w.consume s.polls.length).err = ERR_NO_ERROR
  · obtain ⟨t, ht⟩ := (readable_iff _).mp (hr h)
    rw [(poll_once_read w e d s t h ht).2.2]
    exact hs
  · rw [(poll_once_err w e d s h).2.2]
    exact hs

theorem loop_done (w : World) (b e : Int) (d : Bytes) (fuel : Nat) (s : RangeState)
    (h : ¬ s.messages_read < b) :
    consume_range_loop w b e d (fuel + 1) s = (s, true) := by
  simp [consume_range_loop, h]

theorem loop_break (w : World) (b e : Int) (d : Bytes) (fuel : Nat) (s : RangeState)
    (h : s.messages_read < b) (hr : (poll_once w e d s).remaining_timeout < 0) :
    consume_range_loop w b e d (fuel + 1) s = (poll_once w e d s, true) := by
  simp [consume_range_loop, h, hr]

theorem loop_continue (w : World) (b e : Int) (d : Bytes) (fuel : Nat) (s : RangeState)
    (h : s.messages_read < b) (hr : 0 ≤ (poll_once w e d s).remaining_timeout) :
    consume_range_loop w b e d (fuel + 1) s
      = consume_range_loop w b e d fuel (release_msg (poll_once w e d s)) := by
  have hr2 : ¬ (poll_once w e d s).remaining_timeout < 0 := by omega
  simp [consume_range_loop, h, hr2]

/-- What `first_fault` finds is an error-free message that cannot be read, at an index
below the bound. -/
theorem first_fault_some (w : World) (n k : Nat) (h : first_fault w n = some k) :
    k < n ∧ (w.consume k).err = ERR_NO_ERROR ∧ readable (w.consume k) = false := by
  unfold first_fault at h
  have h1 := List.find?_some h
  have h2 := List.mem_of_find?_eq_some h
  rw [List.mem_range] at h2
  simp [no_error] at h1
  exact ⟨h2, h1.1, h1.2⟩

/-- Number of iterations that `consume_range_run` allows. -/
theorem run_eq_loop (w : World) (topic : String)
    (partition start_offset end_offset batch_timeout : Int) (delimiter : Bytes)
    (fuel : Nat) :
    ∃ n, consume_range_run w topic partition start_offset end_offset batch_timeout
        delimiter fuel
      = consume_range_loop w (to_int64 (end_offset - start_offset))
          (to_int64 (w.now 0 + batch_timeout)) delimiter n
          (consume_range_init topic partition start_offset batch_timeout)
      ∧ (n = fuel ∨ ∃ k, n = k + 1 ∧ first_fault w fuel = some k) := by
  unfold consume_range_run
  cases hff : first_fault w fuel with
  | none => exact ⟨fuel, rfl, Or.inl rfl⟩
  | some k => exact ⟨k + 1, rfl, Or.inr ⟨k, rfl, rfl⟩⟩

/-- When every error-free message polled before the last iteration that the fuel
allows can be read, the run gets the whole fuel. -/
theorem run_eq_loop_of_readable (w : World) (topic : String)
    (partition start_offset end_offset batch_timeout : Int) (delimiter : Bytes)
    (fuel : Nat)
    (h : ∀ k, k + 1 < fuel →
      (w.consume k).err = ERR_NO_ERROR → readable (w.consume k) = true) :
    consume_range_run w topic partition start_offset end_offset batch_timeout
        delimiter fuel
      = consume_range_loop w (to_int64 (end_offset - start_offset))
          (to_int64 (w.now 0 + batch_timeout)) delimiter fuel
          (consume_range_init topic partition start_offset batch_timeout) := by
  unfold consume_range_run
  cases hff : first_fault w fuel with
  | none => rfl
  | some k =>
    obtain ⟨hk, h1, h2⟩ := first_fault_some w fuel k hff
    by_cases hlast : k + 1 < fuel
    · rw [h k hlast h1] at h2
      cases h2
    · have hkf : k + 1 = fuel := by omega
      subst hkf
      rfl

/-! ## The loop keeps the closed description -/

theorem tracks_init (w : World) (e : Int) (d : Bytes) (topic : String)
    (partition start_offset bt : Int) :
    Tracks w e bt d (consume_range_init topic partition start_offset bt) := by
  constructor <;> simp [consume_range_init, frames, polled, poll_timeout]

theorem tracks_poll_once (w : World) (e bt : Int) (d : Bytes) (s : RangeState)
    (h : Tracks w e bt d s) : Tracks w e bt d (poll_once w e d s) := by
  have hlen : (poll_once w e d s).polls.length = s.polls.length + 1 := by
    simp [poll_once_polls]
  by_cases hok : (w.consume s.polls.length).err = ERR_NO_ERROR
  · cases hp : payload_text (w.consume s.polls.length) with
    | none =>
      have hf := poll_once_fault w e d s hok hp
      refine ⟨fun hn => ?_, fun hn => ?_, fun _ => ?_, ?_, ?_, ?_⟩
      · rw [hf] at hn
        cases hn
      · rw [hf] at hn
        cases hn
      · refine ⟨s.polls.length, by omega, hok, ?_⟩
        simp [readable, hp]
      · rw [hlen, poll_once_clock, h.clk]
      · rw [hlen, poll_once_remaining, h.clk]
        simp [poll_timeout]
      · rw [hlen, poll_once_polls, List.range_succ, List.map_append, ← h.log, h.rem]
        simp
    | some t =>
      obtain ⟨hb, hc, hf⟩ := poll_once_read w e d s t hok hp
      have htr := text_read_of_some _ t hp
      refine ⟨fun hn => ?_, fun hn => ?_, fun hn => ?_, ?_, ?_, ?_⟩
      · rw [hf] at hn
        rw [hlen, hb, frames_succ_ok w d _ hok, h.buf hn, htr]
        simp [List.flatten_append]
      · rw [hf] at hn
        rw [hlen, hc, frames_succ_ok w d _ hok, h.cnt hn]
        simp
      · rw [hf] at hn
        obtain ⟨k, hk, hk1, hk2⟩ := h.flt hn
        exact ⟨k, by omega, hk1, hk2⟩
      · rw [hlen, poll_once_clock, h.clk]
      · rw [hlen, poll_once_remaining, h.clk]
        simp [poll_timeout]
      · rw [hlen, poll_once_polls, List.range_succ, List.map_append, ← h.log, h.rem]
        simp
  · obtain ⟨hb, hc, hf⟩ := poll_once_err w e d s hok
    refine ⟨fun hn => ?_, fun hn => ?_, fun hn => ?_, ?_, ?_, ?_⟩
    · rw [hf] at hn
      rw [hlen, hb, frames_succ_err w d _ hok, h.buf hn]
    · rw [hf] at hn
      rw [hlen, hc, frames_succ_err w d _ hok, h.cnt hn]
    · rw [hf] at hn
      obtain ⟨k, hk, hk1, hk2⟩ := h.flt hn
      exact ⟨k, by omega, hk1, hk2⟩
    · rw [hlen, poll_once_clock, h.clk]
    · rw [hlen, poll_once_remaining, h.clk]
      simp [poll_timeout]
    · rw [hlen, poll_once_polls, List.range_succ, List.map_append, ← h.log, h.rem]
      simp

theorem tracks_release (w : World) (e bt : Int) (d : Bytes) (s : RangeState)
    (h : Tracks w e bt d s) : Tracks w e bt d (release_msg s) :=
  ⟨h.buf, h.cnt, h.flt, h.clk, h.rem, h.log⟩

theorem tracks_loop (w : World) (b e bt : Int) (d : Bytes) :
    ∀ (fuel : Nat) (s : RangeState), Tracks w e bt d s →
      Tracks w e bt d (consume_range_loop w b e d fuel s).1 := by
  intro fuel
  induction fuel with
  | zero =>
    intro s h
    simpa [consume_range_loop] using h
  | succ fuel ih =>
    intro s h
    by_cases hc : s.messages_read < b
    · by_cases hr : (poll_once w e d s).remaining_timeout < 0
      · rw [loop_break w b e d fuel s hc hr]
        exact tracks_poll_once w e bt d s h
      · rw [loop_continue w b e d fuel s hc (by omega)]
        exact ih _ (tracks_release w e bt d _ (tracks_poll_once w e bt d s h))
    · rw [loop_done w b e d fuel s hc]
      exact h

/-- Exit by the loop condition: when the next `m` polls are error-free and readable and
the deadline test passes after each of them, `m + 1` units of fuel reach the loop exit
after `K` polls in all. -/
theorem loop_full (w : World) (b e bt : Int) (d : Bytes) (K : Nat) :
    ∀ (m : Nat) (s : RangeState), Tracks w e bt d s → s.faulted = false →
      s.polls.length + m = K →
      s.messages_read + (m : Int) = b →
      (∀ k, s.polls.length ≤ k → k < K →
        (w.consume k).err = ERR_NO_ERROR ∧ readable (w.consume k) = true
        ∧ 0 ≤ to_int (e - w.now (k + 1))) →
      ∃ s', consume_range_loop w b e d (m + 1) s = (s', true)
        ∧ s'.polls.length = K ∧ Tracks w e bt d s' ∧ s'.faulted = false := by
  intro m
  induction m with
  | zero =>
    intro s h hnf hK hb _
    refine ⟨s, loop_done w b e d 0 s (by omega), by omega, h, hnf⟩
  | succ m ih =>
    intro s h hnf hK hb hw
    have hc : s.messages_read < b := by omega
    obtain ⟨hok, hrd, hrem⟩ := hw s.polls.length (le_refl _) (by omega)
    obtain ⟨t, ht⟩ := (readable_iff _).mp hrd
    have hr : 0 ≤ (poll_once w e d s).remaining_timeout := by
      rw [poll_once_remaining, h.clk]
      exact hrem
    rw [loop_continue w b e d (m + 1) s hc hr]
    have hlen : (release_msg (poll_once w e d s)).polls.length = s.polls.length + 1 := by
      simp [release_msg, poll_once_polls]
    have hcnt : (release_msg (poll_once w e d s)).messages_read = s.messages_read + 1 :=
      (poll_once_read w e d s t hok ht).2.1
    have hnf2 : (release_msg (poll_once w e d s)).faulted = false := by
      have := (poll_once_read w e d s t hok ht).2.2
      simpa [release_msg, this] using hnf
    apply ih _ (tracks_release w e bt d _ (tracks_poll_once w e bt d s h)) hnf2
    · omega
    · omega
    · intro k hk1 hk2
      exact hw k (by omega) hk2

/-- Exit by `break`: when fewer than `b` error-free messages, all readable, are among
the first `K` polls and the deadline test first fails after poll `K - 1`, the loop is
left after `K` polls. -/
theorem loop_deadline (w : World) (b e bt : Int) (d : Bytes) (K : Nat) :
    ∀ (m : Nat) (s : RangeState), Tracks w e bt d s → s.faulted = false →
      s.polls.length + m + 1 = K →
      ((frames w d K).length : Int) < b →
      (∀ k, s.polls.length ≤ k → k + 1 < K → 0 ≤ to_int (e - w.now (k + 1))) →
      to_int (e - w.now K) < 0 →
      (∀ k, s.polls.length ≤ k → k < K →
        (w.consume k).err = ERR_NO_ERROR → readable (w.consume k) = true) →
      ∃ s', consume_range_loop w b e d (m + 1) s = (s', true)
        ∧ s'.polls.length = K ∧ Tracks w e bt d s' ∧ s'.faulted = false := by
  intro m
  induction m with
  | zero =>
    intro s h hnf hK hb _ hexp hread
    have hmono := frames_length_mono w d s.polls.length K (by omega)
    have hc : s.messages_read < b := by
      rw [h.cnt hnf]
      omega
    have hr : (poll_once w e d s).remaining_timeout < 0 := by
      rw [poll_once_remaining, h.clk]
      have : s.polls.length + 1 = K := by omega
      rw [this]
      exact hexp
    refine ⟨poll_once w e d s, loop_break w b e d 0 s hc hr, ?_,
      tracks_poll_once w e bt d s h,
      poll_once_no_fault w e d s hnf (hread _ (le_refl _) (by omega))⟩
    simp [poll_once_polls]
    omega
  | succ m ih =>
    intro s h hnf hK hb hw hexp hread
    have hmono := frames_length_mono w d s.polls.length K (by omega)
    have hc : s.messages_read < b := by
      rw [h.cnt hnf]
      omega
    have hr : 0 ≤ (poll_once w e d s).remaining_timeout := by
      rw [poll_once_remaining, h.clk]
      exact hw s.polls.length (le_refl _) (by omega)
    rw [loop_continue w b e d (m + 1) s hc hr]
    have hlen : (release_msg (poll_once w e d s)).polls.length = s.polls.length + 1 := by
      simp [release_msg, poll_once_polls]
    have hnf2 : (release_msg (poll_once w e d s)).faulted = false :=
      poll_once_no_fault w e d s hnf (hread _ (le_refl _) (by omega))
    apply ih _ (tracks_release w e bt d _ (tracks_poll_once w e bt d s h)) hnf2
    · omega
    · exact hb
    · intro k hk1 hk2
      exact hw k (by omega) hk2
    · exact hexp
    · intro k hk1 hk2
      exact hread k (by omega) hk2

/-- The text of a C string is whole when the bytes hold no zero byte. -/
theorem c_str_of_text (p : Bytes) (h : NUL ∉ p) : c_str p = p := by
  unfold c_str
  rw [List.takeWhile_eq_self_iff]
  intro x hx
  have : x ≠ NUL := fun hxn => h (hxn ▸ hx)
  simpa using this

/-- The C string at the start of memory that holds text without zero byte followed by
a zero byte is that text. -/
theorem c_str_terminated (p rest : Bytes) (h : NUL ∉ p) : c_str (p ++ NUL :: rest) = p := by
  induction p with
  | nil => simp [c_str]
  | cons x xs ih =>
    have hx : x ≠ NUL := fun hxn => h (by simp [hxn])
    have hxs : NUL ∉ xs := fun hm => h (by simp [hm])
    have ih2 := ih hxs
    have hb : (x != NUL) = true := by simpa using hx
    unfold c_str at ih2 ⊢
    simp [List.takeWhile, hb, ih2]

/-- Line 92 appends exactly the payload when the payload holds no zero byte and is
directly followed by one in memory. -/
theorem payload_text_of_terminated (m : Message) (p rest : Bytes)
    (hp : m.payload = some p) (hb : m.beyond = NUL :: rest) (h : NUL ∉ p) :
    payload_text m = some p := by
  unfold payload_text
  rw [hp, hb]
  simp [c_str_terminated p rest h]

/-- A run is faulted as soon as it polled an error-free message that cannot be read,
and then yields no value. -/
theorem unreadable_message_faults (w : World) (topic : String)
    (partition start_offset end_offset batch_timeout : Int) (delimiter : Bytes)
    (fuel : Nat)
    (h : (consume_range_run w topic partition start_offset end_offset batch_timeout
      delimiter fuel).1.faulted = true) :
    consume_range w topic partition start_offset end_offset batch_timeout delimiter fuel
      = none := by
  unfold consume_range
  rcases hrun : consume_range_run w topic partition start_offset end_offset batch_timeout
    delimiter fuel with ⟨s, b⟩
  rw [hrun] at h
  cases b <;> simp_all

/-- Every poll after the first was preceded by a deadline test that found a
non-negative remaining time. -/
theorem loop_polls_nonneg (w : World) (b e bt : Int) (d : Bytes) :
    ∀ (fuel : Nat) (s : RangeState), Tracks w e bt d s →
      (∀ k, k < s.polls.length → 0 ≤ to_int (e - w.now (k + 1))) →
      ∀ k, k + 1 < (consume_range_loop w b e d fuel s).1.polls.length →
        0 ≤ to_int (e - w.now (k + 1)) := by
  intro fuel
  induction fuel with
  | zero =>
    intro s _ hs k hk
    have hk2 : k + 1 < s.polls.length := hk
    exact hs k (by omega)
  | succ fuel ih =>
    intro s h hs k hk
    by_cases hc : s.messages_read < b
    · by_cases hr : (poll_once w e d s).remaining_timeout < 0
      · rw [loop_break w b e d fuel s hc hr] at hk
        simp [poll_once_polls] at hk
        exact hs k hk
      · rw [loop_continue w b e d fuel s hc (by omega)] at hk
        refine ih _ (tracks_release w e bt d _ (tracks_poll_once w e bt d s h)) ?_ k hk
        intro j hj
        have hlen : (release_msg (poll_once w e d s)).polls.length = s.polls.length + 1 := by
          simp [release_msg, poll_once_polls]
        rcases Nat.lt_or_ge j s.polls.length with hlt | hge
        · exact hs j hlt
        · have hj2 : j = s.polls.length := by omega
          rw [poll_once_remaining, h.clk] at hr
          rw [hj2]
          omega
    · rw [loop_done w b e d fuel s hc] at hk
      have hk2 : k + 1 < s.polls.length := hk
      exact hs k (by omega)

/-- Release discipline of the loop: at any point either every polled message has been
deleted, or the loop was left by `break` and exactly the last polled message has
not. -/
theorem released_after_loop (w : World) (b e : Int) (d : Bytes) :
    ∀ (fuel : Nat) (s : RangeState), s.released = List.range s.polls.length →
      (consume_range_loop w b e d fuel s).1.released
          = List.range (consume_range_loop w b e d fuel s).1.polls.length
      ∨ ((consume_range_loop w b e d fuel s).2 = true
        ∧ (consume_range_loop w b e d fuel s).1.remaining_timeout < 0
        ∧ (consume_range_loop w b e d fuel s).1.released.length + 1
            = (consume_range_loop w b e d fuel s).1.polls.length) := by
  intro fuel
  induction fuel with
  | zero =>
    intro s h
    exact Or.inl h
  | succ fuel ih =>
    intro s h
    by_cases hc : s.messages_read < b
    · by_cases hr : (poll_once w e d s).remaining_timeout < 0
      · rw [loop_break w b e d fuel s hc hr]
        refine Or.inr ⟨rfl, hr, ?_⟩
        simp [poll_once_released, poll_once_polls, h]
      · rw [loop_continue w b e d fuel s hc (by omega)]
        apply ih
        simp [release_msg, poll_once_released, poll_once_polls, h, List.range_succ]
    · rw [loop_done w b e d fuel s hc]
      exact Or.inl h

theorem readable_text_msg (t : String) : readable (text_msg t) = true := by
  simp [readable, payload_text, text_msg]

/-! ## consume_range: the full window -/

/-- C1, as stated, fails in three ways.  First, with the error-free payload bytes
'a', 0, 'b' delivered twice for the window [100, 102) and a clock that never passes the
deadline, the returned buffer is "a\na\n", not the two whole payloads each followed by
the delimiter.  Second, with timeout 2147483647 and a clock set back by one
millisecond after entry, the deadline is never passed and the messages are error-free,
yet the call returns "a\n" for the window [0, 2).  Third, for the offsets -2 and
9223372036854775807 the call makes no poll and returns the empty buffer. -/
theorem C1_full_window_counterexample :
    ((∀ k, (binary_world.consume k).err = ERR_NO_ERROR)
      ∧ (∀ k, binary_world.now k ≤ binary_world.now 0 + 5000)
      ∧ consume_range binary_world "t" 0 100 102 5000 "\n".toList 3 = some "a\na\n".toList
      ∧ consume_range binary_world "t" 0 100 102 5000 "\n".toList 3
          ≠ some (((polled binary_world 2).map
              (fun m => m.payload.getD [] ++ "\n".toList)).flatten))
    ∧ ((∀ k, (backward_world.consume k).err = ERR_NO_ERROR)
      ∧ (∀ k, backward_world.now k ≤ backward_world.now 0 + 2147483647)
      ∧ consume_range backward_world "t" 0 0 2 2147483647 "\n".toList 3
          = some "a\n".toList)
    ∧ ((-2 : Int) ≤ 9223372036854775807
      ∧ consume_range full_world "t" 0 (-2) 9223372036854775807 5000 "\n".toList 1
          = some []
      ∧ (consume_range_run full_world "t" 0 (-2) 9223372036854775807 5000 "\n".toList
          1).1.polls = []) := by
  refine ⟨⟨fun _ => rfl, fun _ => by simp [binary_world], by decide, by decide⟩,
    ⟨fun _ => rfl, fun k => ?_, by decide⟩, ⟨by decide, by decide, by decide⟩⟩
  by_cases hk : k = 0 <;> simp [backward_world, hk]

/-- C1 (amended): for offsets `start_offset ≤ end_offset` whose difference fits
`int64_t`, when each of the first `end_offset - start_offset` polls delivers an
error-free message for which line 92 is defined (non-null `payload()`, a zero byte at
or after it in memory) and the remaining time that the code computes after each of
these polls, `deadline - now` with `deadline = now at entry + batch_timeout`, stored
in an `int`, is never negative, `consume_range` returns after exactly that many
polls, and the buffer is the concatenation, in delivery order, of the C strings at
`payload()` (the bytes from the payload pointer up to the first zero byte in memory,
whatever `len()` is), each followed by the delimiter. -/
theorem C1_full_window_c_str (w : World) (topic : String)
    (partition start_offset end_offset batch_timeout : Int) (delimiter : Bytes)
    (hwin : start_offset ≤ end_offset)
    (hfit : end_offset - start_offset < 9223372036854775808)
    (hok : ∀ k : Nat, (k : Int) < end_offset - start_offset →
      (w.consume k).err = ERR_NO_ERROR ∧ readable (w.consume k) = true)
    (hclk : ∀ k : Nat, (k : Int) < end_offset - start_offset →
      0 ≤ to_int (w.now 0 + batch_timeout - w.now (k + 1))) :
    consume_range w topic partition start_offset end_offset batch_timeout delimiter
        ((end_offset - start_offset).toNat + 1)
      = some (((polled w (end_offset - start_offset).toNat).map
          (fun m => text_read m ++ delimiter)).flatten)
    ∧ (consume_range_run w topic partition start_offset end_offset batch_timeout delimiter
        ((end_offset - start_offset).toNat + 1)).1.polls.length
      = (end_offset - start_offset).toNat := by
  have hn : ((end_offset - start_offset).toNat : Int) = end_offset - start_offset :=
    Int.toNat_of_nonneg (by omega)
  have hb : to_int64 (end_offset - start_offset) = end_offset - start_offset :=
    to_int64_of_fits _ (by omega) hfit
  have hcut := run_eq_loop_of_readable w topic partition start_offset end_offset
    batch_timeout delimiter ((end_offset - start_offset).toNat + 1)
    (fun k hk hk1 => (hok k (by omega)).2)
  rw [hb] at hcut
  obtain ⟨s', hrun, hlen, htr, hnf⟩ :=
    loop_full w (end_offset - start_offset) (to_int64 (w.now 0 + batch_timeout))
      batch_timeout delimiter
      (end_offset - start_offset).toNat (end_offset - start_offset).toNat
      (consume_range_init topic partition start_offset batch_timeout)
      (tracks_init w _ delimiter topic partition start_offset batch_timeout)
      rfl
      (by simp [consume_range_init])
      (by simp only [consume_range_init]; omega)
      (by
        intro k _ hk
        have hk2 : (k : Int) < end_offset - start_offset := by omega
        refine ⟨(hok k hk2).1, (hok k hk2).2, ?_⟩
        rw [to_int_sub_to_int64]
        exact hclk k hk2)
  have hall : (polled w (end_offset - start_offset).toNat).filter no_error
      = polled w (end_offset - start_offset).toNat := by
    rw [List.filter_eq_self]
    intro m hm
    simp only [polled, List.mem_map, List.mem_range] at hm
    obtain ⟨k, hk, rfl⟩ := hm
    simp [no_error, (hok k (by omega)).1]
  constructor
  · simp only [consume_range, hcut, hrun, hnf]
    rw [htr.buf hnf, hlen, frames, hall]
    simp
  · rw [hcut, hrun]
    exact hlen

/-- C1 witness: the scenario window [100, 105), timeout 5000, delimiter "\n", payloads
"a" to "e" gives "a\nb\nc\nd\ne\n" after five polls. -/
theorem C1_full_window_c_str_witness :
    consume_range full_world "t" 0 100 105 5000 "\n".toList 6
      = some "a\nb\nc\nd\ne\n".toList
    ∧ (consume_range_run full_world "t" 0 100 105 5000 "\n".toList 6).1.polls.length = 5 :=
  have h := C1_full_window_c_str full_world "t" 0 100 105 5000 "\n".toList (by decide)
    (by decide)
    (fun _ _ => ⟨rfl, readable_text_msg _⟩)
    (fun k hk => by
      simp only [full_world, to_int]
      push_cast
      omega)
  ⟨h.1.trans (by decide), h.2⟩

/-! ## consume_range: buffer content -/

/-- C2, as stated, fails.  After a poll that timed out and a poll that delivered the
payload bytes 'x', 0, 'y', the returned buffer is "x\n", not payload plus delimiter.
For a payload "ab" that is followed in memory by "XYZ" before the first zero byte the
returned buffer is "abXYZ\n".  For an error-free message with a null payload pointer
the run faults at its first poll and no buffer is returned. -/
theorem C2_buffer_content_counterexample :
    (consume_range mixed_world "t" 0 0 1 5000 "\n".toList 3 = some "x\n".toList
      ∧ (consume_range_run mixed_world "t" 0 0 1 5000 "\n".toList 3).1.polls.length = 2
      ∧ consume_range mixed_world "t" 0 0 1 5000 "\n".toList 3
          ≠ some ((((polled mixed_world 2).filter no_error).map
              (fun m => m.payload.getD [] ++ "\n".toList)).flatten))
    ∧ (consume_range unterminated_world "t" 0 0 1 5000 "\n".toList 2
          = some "abXYZ\n".toList
      ∧ consume_range unterminated_world "t" 0 0 1 5000 "\n".toList 2
          ≠ some ((((polled unterminated_world 1).filter no_error).map
              (fun m => m.payload.getD [] ++ "\n".toList)).flatten))
    ∧ ((consume_range_run null_world "t" 0 0 1 5000 "\n".toList 3).1.faulted = true
      ∧ (consume_range_run null_world "t" 0 0 1 5000 "\n".toList 3).1.polls.length = 1
      ∧ consume_range null_world "t" 0 0 1 5000 "\n".toList 3 = none) := by
  refine ⟨⟨by decide, by decide, by decide⟩, ⟨by decide, by decide⟩,
    ⟨by decide, by decide, by decide⟩⟩

/-- C2 (amended): for every sequence of poll results and every clock behaviour, at any
point of a run in which line 92 is defined for each error-free message polled
(non-null `payload()`, a zero byte at or after it in memory), and so at return, the
buffer equals the concatenation, in poll order, of (the C string at `payload()`, that
is the bytes from the payload pointer up to the first zero byte in memory, whatever
`len()` is, followed by the delimiter) over exactly the polled messages whose code is
ERR_NO_ERROR, and `messages_read` is the number of those messages: a message with any
other code adds no bytes and does not count. -/
theorem C2_buffer_content_c_str (w : World) (topic : String)
    (partition start_offset end_offset batch_timeout : Int) (delimiter : Bytes)
    (fuel : Nat)
    (hread : ∀ k : Nat, k < (consume_range_run w topic partition start_offset end_offset
        batch_timeout delimiter fuel).1.polls.length →
      (w.consume k).err = ERR_NO_ERROR → readable (w.consume k) = true) :
    (consume_range_run w topic partition start_offset end_offset batch_timeout delimiter
        fuel).1.str_buffer
      = (((polled w (consume_range_run w topic partition start_offset end_offset
            batch_timeout delimiter fuel).1.polls.length).filter no_error).map
          (fun m => text_read m ++ delimiter)).flatten
    ∧ (consume_range_run w topic partition start_offset end_offset batch_timeout delimiter
        fuel).1.messages_read
      = (((polled w (consume_range_run w topic partition start_offset end_offset
            batch_timeout delimiter fuel).1.polls.length).filter no_error).length : Int)
    ∧ consume_range w topic partition start_offset end_offset batch_timeout delimiter fuel
      = (if (consume_range_run w topic partition start_offset end_offset batch_timeout
            delimiter fuel).2 = true
          then some (consume_range_run w topic partition start_offset end_offset
            batch_timeout delimiter fuel).1.str_buffer
          else none) := by
  have htr : Tracks w (to_int64 (w.now 0 + batch_timeout)) batch_timeout delimiter
      (consume_range_run w topic partition start_offset end_offset batch_timeout
        delimiter fuel).1 := by
    obtain ⟨n, hn, _⟩ := run_eq_loop w topic partition start_offset end_offset
      batch_timeout delimiter fuel
    rw [hn]
    exact tracks_loop w (to_int64 (end_offset - start_offset))
      (to_int64 (w.now 0 + batch_timeout)) batch_timeout delimiter n
      (consume_range_init topic partition start_offset batch_timeout)
      (tracks_init w _ delimiter topic partition start_offset batch_timeout)
  have hnf : (consume_range_run w topic partition start_offset end_offset batch_timeout
      delimiter fuel).1.faulted = false := by
    cases hf : (consume_range_run w topic partition start_offset end_offset
      batch_timeout delimiter fuel).1.faulted with
    | false => rfl
    | true =>
      obtain ⟨k, hk, h1, h2⟩ := htr.flt hf
      rw [hread k hk h1] at h2
      cases h2
  refine ⟨htr.buf hnf, ?_, ?_⟩
  · have h := htr.cnt hnf
    simp only [frames, List.length_map] at h
    exact h
  · unfold consume_range
    rcases hrun : consume_range_run w topic partition start_offset end_offset batch_timeout
      delimiter fuel with ⟨s, b⟩
    rw [hrun] at hnf
    cases b <;> simp_all

/-- C2 witness: in the run with a timed-out poll followed by the payload 'x', 0, 'y'
both messages satisfy the hypothesis and the buffer is "x\n" with one message
counted. -/
theorem C2_buffer_content_c_str_witness :
    (consume_range_run mixed_world "t" 0 0 1 5000 "\n".toList 3).1.str_buffer
      = "x\n".toList
    ∧ (consume_range_run mixed_world "t" 0 0 1 5000 "\n".toList 3).1.messages_read = 1 :=
  have h := C2_buffer_content_c_str mixed_world "t" 0 0 1 5000 "\n".toList 3
    (fun k _ hok => by
      by_cases hk : k = 0
      · subst hk
        exact absurd hok (by decide)
      · simp [mixed_world, hk, readable, payload_text])
  ⟨h.1.trans (by decide), h.2.1.trans (by decide)⟩

/-! ## consume_range: fewer payloads on deadline -/

/-- C3, as stated, fails.  In the first run the deadline is 0 and the clock reads
2147483649 after the first poll, with one of two messages read: the remaining time
wraps to 2147483647 in the `int`, the loop goes on and the call returns both
payloads.  In the second run the clock reads exactly the deadline 1005 after the
first poll: the remaining time is 0, the loop goes on and the call returns both
payloads. -/
theorem C3_deadline_passed_counterexample :
    (overrun_world.now 0 + 0 < overrun_world.now 1
      ∧ (consume_range_run overrun_world "t" 0 0 2 0 "\n".toList 1).1.messages_read = 1
      ∧ consume_range overrun_world "t" 0 0 2 0 "\n".toList 3
          = some ["a\n".toList, "b\n".toList].flatten
      ∧ ¬ ((["a\n".toList, "b\n".toList].length : Int) < 2 - 0))
    ∧ (boundary_world.now 1 = boundary_world.now 0 + 5
      ∧ (consume_range_run boundary_world "t" 0 0 2 5 "\n".toList 1).1.messages_read = 1
      ∧ consume_range boundary_world "t" 0 0 2 5 "\n".toList 3
          = some ["a\n".toList, "b\n".toList].flatten) := by
  refine ⟨⟨by decide, by decide, by decide, by decide⟩, ⟨by decide, by decide, by decide⟩⟩

/-- C3 (amended): let the deadline be `now at entry + batch_timeout` and the remaining
time after a poll be `deadline - now` as the code stores it in an `int`.  When the
remaining time is negative for the first time after poll `k`, fewer than
`end_offset - start_offset` (a difference that fits `int64_t`) error-free messages are
among the polls made until then, and line 92 is defined for each of them, then
`consume_range` returns normally after those `k + 1` polls, and the buffer is the
concatenation of strictly fewer than `end_offset - start_offset` delimiter-terminated
C strings read at `payload()`. -/
theorem C3_fewer_payloads_on_deadline (w : World) (topic : String)
    (partition start_offset end_offset batch_timeout : Int) (delimiter : Bytes) (k : Nat)
    (hfit : end_offset - start_offset < 9223372036854775808)
    (hpass : ∀ j : Nat, j < k →
      0 ≤ to_int (w.now 0 + batch_timeout - w.now (j + 1)))
    (hexp : to_int (w.now 0 + batch_timeout - w.now (k + 1)) < 0)
    (hread : ∀ j : Nat, j ≤ k →
      (w.consume j).err = ERR_NO_ERROR → readable (w.consume j) = true)
    (hfew : (((polled w (k + 1)).filter no_error).length : Int)
      < end_offset - start_offset) :
    ∃ delivered : List Bytes,
      consume_range w topic partition start_offset end_offset batch_timeout delimiter
          (k + 1) = some delivered.flatten
      ∧ delivered = ((polled w (k + 1)).filter no_error).map
          (fun m => text_read m ++ delimiter)
      ∧ (delivered.length : Int) < end_offset - start_offset := by
  have hb : to_int64 (end_offset - start_offset) = end_offset - start_offset :=
    to_int64_of_fits _ (by omega) hfit
  have hcut := run_eq_loop_of_readable w topic partition start_offset end_offset
    batch_timeout delimiter (k + 1) (fun j hj hj1 => hread j (by omega) hj1)
  rw [hb] at hcut
  obtain ⟨s', hrun, hlen, htr, hnf⟩ :=
    loop_deadline w (end_offset - start_offset) (to_int64 (w.now 0 + batch_timeout))
      batch_timeout delimiter (k + 1) k
      (consume_range_init topic partition start_offset batch_timeout)
      (tracks_init w _ delimiter topic partition start_offset batch_timeout)
      rfl
      (by simp [consume_range_init])
      (by simpa [frames] using hfew)
      (by
        intro j _ hj
        rw [to_int_sub_to_int64]
        exact hpass j (by omega))
      (by
        rw [to_int_sub_to_int64]
        exact hexp)
      (by
        intro j _ hj
        exact hread j (by omega))
  refine ⟨frames w delimiter (k + 1), ?_, rfl, by simpa [frames] using hfew⟩
  simp only [consume_range, hcut, hrun, hnf]
  rw [htr.buf hnf, hlen]
  simp

/-- C3 witness: window [100, 105), timeout 5000, only "a" and "b" delivered before the
deadline: the call returns "a\nb\n", two payloads for a target of five. -/
theorem C3_fewer_payloads_on_deadline_witness :
    ∃ delivered : List Bytes,
      consume_range short_world "t" 0 100 105 5000 "\n".toList 3 = some delivered.flatten
      ∧ delivered = ["a\n".toList, "b\n".toList]
      ∧ (delivered.length : Int) < 105 - 100 := by
  obtain ⟨delivered, h1, h2, h3⟩ :=
    C3_fewer_payloads_on_deadline short_world "t" 0 100 105 5000 "\n".toList 2
      (by decide)
      (fun j hj => by
        have hj2 : j + 1 ≤ 2 := by omega
        simp only [short_world, hj2, if_true, to_int]
        push_cast
        omega)
      (by decide)
      (fun j _ hok => by
        by_cases hj2 : j < 2
        · simp only [short_world, hj2, if_true]
          exact readable_text_msg _
        · simp only [short_world, hj2, if_false] at hok
          exact absurd hok (by decide))
      (by decide)
  exact ⟨delivered, h1, h2.trans (by decide), h3⟩

/-! ## consume_range: empty window -/

/-- C4: with `start_offset = end_offset` the call returns the empty buffer, for every
amount of fuel that allows the loop condition to be tested once, and no poll is
made. -/
theorem C4_empty_window (w : World) (topic : String) (partition offset batch_timeout : Int)
    (delimiter : Bytes) (fuel : Nat) :
    consume_range w topic partition offset offset batch_timeout delimiter (fuel + 1)
      = some []
    ∧ (consume_range_run w topic partition offset offset batch_timeout delimiter
        (fuel + 1)).1.polls = [] := by
  have hrun : consume_range_run w topic partition offset offset batch_timeout delimiter
      (fuel + 1) = (consume_range_init topic partition offset batch_timeout, true) := by
    obtain ⟨n, hn, hcase⟩ := run_eq_loop w topic partition offset offset batch_timeout
      delimiter (fuel + 1)
    rw [hn]
    rcases hcase with h1 | ⟨k, h1, _⟩ <;> subst h1 <;>
      exact loop_done w _ _ delimiter _ _ (by simp [consume_range_init, to_int64])
  simp [consume_range, hrun, consume_range_init]

/-! ## consume_range: the deadline check -/

/-- C9 fails on the `break` path: in the late run the only poll delivers "a", the
deadline test then leaves the loop before `delete msg`, and the call returns with one
poll made and no message released. -/
theorem C9_message_not_released_on_break :
    consume_range late_world "t" 0 0 2 5 "\n".toList 2 = some "a\n".toList
    ∧ (consume_range_run late_world "t" 0 0 2 5 "\n".toList 2).1.polls.length = 1
    ∧ (consume_range_run late_world "t" 0 0 2 5 "\n".toList 2).1.released = [] := by
  refine ⟨by decide, by decide, by decide⟩

/-! ## consume_range: the timeout of each poll -/

/-- C10, as stated, fails: with deadline 0 and a clock that reads 2147483649 after the
first poll, the second poll is made with timeout 2147483647, while `deadline - now`
is -2147483649. -/
theorem C10_poll_timeout_counterexample :
    (consume_range_run overrun_world "t" 0 0 2 0 "\n".toList 3).1.polls
      = [0, 2147483647]
    ∧ (List.range 2).map (fun i => overrun_world.now 0 + 0 - overrun_world.now i)
      = [0, -2147483649]
    ∧ (consume_range_run overrun_world "t" 0 0 2 0 "\n".toList 3).1.polls
      ≠ (List.range 2).map (fun i => overrun_world.now 0 + 0 - overrun_world.now i) := by
  refine ⟨by decide, by decide, by decide⟩

/-- C10 (amended): at any point of any run the first poll is made with `batch_timeout`
itself, and every later poll with `deadline - now` reduced to the 32-bit `int` it is
stored in, with `deadline = now at entry + batch_timeout` and `now` the clock reading
taken at the end of the iteration before.  The timeout depends on the deadline and on
that one reading only, not on the durations of earlier polls. -/
theorem C10_poll_timeout_narrowed (w : World) (topic : String)
    (partition start_offset end_offset batch_timeout : Int) (delimiter : Bytes)
    (fuel : Nat) :
    (consume_range_run w topic partition start_offset end_offset batch_timeout delimiter
        fuel).1.polls
      = (List.range (consume_range_run w topic partition start_offset end_offset
          batch_timeout delimiter fuel).1.polls.length).map
          (fun i => if i = 0 then batch_timeout
            else to_int (w.now 0 + batch_timeout - w.now i)) := by
  have htr : Tracks w (to_int64 (w.now 0 + batch_timeout)) batch_timeout delimiter
      (consume_range_run w topic partition start_offset end_offset batch_timeout
        delimiter fuel).1 := by
    obtain ⟨n, hn, _⟩ := run_eq_loop w topic partition start_offset end_offset
      batch_timeout delimiter fuel
    rw [hn]
    exact tracks_loop w (to_int64 (end_offset - start_offset))
      (to_int64 (w.now 0 + batch_timeout)) batch_timeout delimiter n
      (consume_range_init topic partition start_offset batch_timeout)
      (tracks_init w _ delimiter topic partition start_offset batch_timeout)
  have hlog := htr.log
  have hfun : poll_timeout w (to_int64 (w.now 0 + batch_timeout)) batch_timeout
      = fun i => if i = 0 then batch_timeout
          else to_int (w.now 0 + batch_timeout - w.now i) := by
    funext i
    unfold poll_timeout
    rw [to_int_sub_to_int64]
  rw [hfun] at hlog
  exact hlog

/-! ## get_watermark_offset -/

/-- The map built by the two `results.insert` calls holds exactly the keys "high" and
"low". -/
theorem results_map (low high : Int) :
    map_insert (map_insert [] "low" low) "high" high = [("high", high), ("low", low)] := by
  have h1 : ¬ ("high" = "low") := by decide
  have h2 : "high".toList < "low".toList := by decide
  simp only [map_insert]
  rw [if_neg h1, if_pos h2]

/-- C5: on the live path (`cached = false`), for any code and watermark values reported
by `query_watermark_offsets`, the call returns the map with "low" and "high" when the
code is ERR_NO_ERROR or ERR__PARTITION_EOF and throws with the diagnostic text of the
code (a C string) otherwise; it fails exactly when the code is neither of the two. -/
theorem C5_watermark_error_classification (c : WatermarkSession)
    (err2str : ErrorCode → Bytes) (topic : String) (partition timeout : Int)
    (code : ErrorCode) (low high : Int)
    (hreply : c.query_watermark_offsets topic partition timeout
      = { err := code, low := low, high := high })
    (htext : NUL ∉ err2str code) :
    ((code = ERR_NO_ERROR ∨ code = ERR__PARTITION_EOF) →
      (get_watermark_offset c err2str topic partition timeout false).result
        = .ok [("high", high), ("low", low)]
      ∧ map_find [("high", high), ("low", low)] "low" = some low
      ∧ map_find [("high", high), ("low", low)] "high" = some high)
    ∧ (¬ (code = ERR_NO_ERROR ∨ code = ERR__PARTITION_EOF) →
      (get_watermark_offset c err2str topic partition timeout false).result
        = .error (err2str code))
    ∧ ((∃ msg, (get_watermark_offset c err2str topic partition timeout false).result
          = .error msg)
      ↔ (code ≠ ERR_NO_ERROR ∧ code ≠ ERR__PARTITION_EOF)) := by
  have hfind : map_find [("high", high), ("low", low)] "low" = some low
      ∧ map_find [("high", high), ("low", low)] "high" = some high := by
    have h1 : ¬ ("low" = "high") := by decide
    simp [map_find, h1]
  by_cases h0 : code = ERR_NO_ERROR
  · have hres : (get_watermark_offset c err2str topic partition timeout false).result
        = .ok [("high", high), ("low", low)] := by
      simp [get_watermark_offset, hreply, h0, results_map]
    refine ⟨fun _ => ⟨hres, hfind⟩, fun hn => absurd (Or.inl h0) hn, ?_⟩
    rw [hres]
    constructor
    · rintro ⟨msg, hmsg⟩
      cases hmsg
    · rintro ⟨hne, _⟩
      exact absurd h0 hne
  · by_cases h1 : code = ERR__PARTITION_EOF
    · have hres : (get_watermark_offset c err2str topic partition timeout false).result
          = .ok [("high", high), ("low", low)] := by
        simp [get_watermark_offset, hreply, h0, h1, results_map]
      refine ⟨fun _ => ⟨hres, hfind⟩, fun hn => absurd (Or.inr h1) hn, ?_⟩
      rw [hres]
      constructor
      · rintro ⟨msg, hmsg⟩
        cases hmsg
      · rintro ⟨_, hne⟩
        exact absurd h1 hne
    · have hres : (get_watermark_offset c err2str topic partition timeout false).result
          = .error (err2str code) := by
        simp [get_watermark_offset, hreply, h0, h1, c_str_of_text _ htext]
      refine ⟨fun h => ?_, fun _ => hres, ?_⟩
      · rcases h with h | h
        · exact absurd h h0
        · exact absurd h h1
      · rw [hres]
        exact ⟨fun _ => ⟨h0, h1⟩, fun _ => ⟨_, rfl⟩⟩

/-- C5 witness: a live query that reports end of partition with watermarks 3 and 8
yields the map with "low" 3 and "high" 8. -/
theorem C5_watermark_error_classification_witness :
    (get_watermark_offset eof_session sample_err2str "t" 0 100 false).result
      = .ok [("high", 8), ("low", 3)] :=
  ((C5_watermark_error_classification eof_session sample_err2str "t" 0 100
    ERR__PARTITION_EOF 3 8 rfl (by decide)).1 (Or.inr rfl)).1

/-- C6: with `cached = true` the only lookup made is the cached one, so the live query
`query_watermark_offsets` is not called, and when the cached lookup reports success the
call returns the pair of the cached view. -/
theorem C6_watermark_cached (c : WatermarkSession) (err2str : ErrorCode → Bytes)
    (topic : String) (partition timeout : Int) :
    (get_watermark_offset c err2str topic partition timeout true).calls
      = [WatermarkCall.cached topic partition]
    ∧ (∀ t p tm, WatermarkCall.live t p tm
        ∉ (get_watermark_offset c err2str topic partition timeout true).calls)
    ∧ ((c.get_watermark_offsets topic partition).err = ERR_NO_ERROR →
      (get_watermark_offset c err2str topic partition timeout true).result
        = .ok [("high", (c.get_watermark_offsets topic partition).high),
               ("low", (c.get_watermark_offsets topic partition).low)]) := by
  have hcalls : (get_watermark_offset c err2str topic partition timeout true).calls
      = [WatermarkCall.cached topic partition] := by
    unfold get_watermark_offset
    simp only [if_true]
    split
    · split <;> rfl
    · rfl
  refine ⟨hcalls, ?_, ?_⟩
  · intro t p tm
    rw [hcalls]
    simp
  · intro h
    simp [get_watermark_offset, h, results_map]

/-- C6 witness: the cached view of the sample session reports success with watermarks
2 and 7, which the call returns without a live query. -/
theorem C6_watermark_cached_witness :
    (get_watermark_offset eof_session sample_err2str "t" 0 100 true).calls
      = [WatermarkCall.cached "t" 0]
    ∧ (get_watermark_offset eof_session sample_err2str "t" 0 100 true).result
      = .ok [("high", 7), ("low", 2)] :=
  ⟨(C6_watermark_cached eof_session sample_err2str "t" 0 100).1,
    (C6_watermark_cached eof_session sample_err2str "t" 0 100).2.2 rfl⟩

/-! ## commit_offset -/

/-- C7: `commit_offset` returns false exactly when the record could not be created, and
then `commitSync` is not called; when the record is created, `commitSync` is called
once with that single record carrying the offset, and the result is true whatever
code `commitSync` reports. -/
theorem C7_commit_offset_result (c : CommitSession) (topic : String)
    (partition offset : Int) :
    ((commit_offset c topic partition offset).result = false
      ↔ c.create topic partition offset = none)
    ∧ (c.create topic partition offset = none →
      (commit_offset c topic partition offset).commits = [])
    ∧ (∀ toppar, c.create topic partition offset = some toppar →
      (commit_offset c topic partition offset).commits
        = [[{ toppar with offset := offset }]]
      ∧ (commit_offset c topic partition offset).result = true
      ∧ (commit_offset c topic partition offset).err_
        = some (c.commitSync [{ toppar with offset := offset }])) := by
  cases hc : c.create topic partition offset with
  | none => simp [commit_offset, hc]
  | some tp => simp [commit_offset, hc]

/-- C7 witness: the record is created and `commitSync` reports a timeout; the call
still returns true after one `commitSync` call. -/
theorem C7_commit_offset_result_witness :
    (commit_offset failing_commit_session "t" 0 42).commits
      = [[{ topic := "t", partition := 0, offset := 42 }]]
    ∧ (commit_offset failing_commit_session "t" 0 42).result = true
    ∧ (commit_offset failing_commit_session "t" 0 42).err_ = some ERR__TIMED_OUT :=
  (C7_commit_offset_result failing_commit_session "t" 0 42).2.2
    { topic := "t", partition := 0, offset := 42 } rfl

end cudf.io.external.kafka
